import Mathlib

/-!
Verification of the matrix-routing core of RusTV: the `MatrixRouter`
routing table (`src/matrix/router.rs`), the `NdiDiscovery` source registry
(`src/ndi/discovery.rs`) and the `NdiSource` value type
(`src/ndi/source.rs`), embedded shallowly.  The Rust `HashMap<String,
String>` holding the output→input mapping is modelled as an association
list with unique keys (an invariant of every reachable state);
`HashMap::insert` overwrites in place, `HashMap::remove` deletes the
entry, iteration enumerates the entries.
-/

namespace RusTV

/-- Mirrors `NdiSource` from `src/ndi/source.rs`: a discoverable input with
a display `name`, a `url` (primary identity) and group tags. -/
structure NdiSource where
  name : String
  url : String
  groups : List String
  deriving DecidableEq

/-- Mirrors `Route` from `src/matrix/router.rs`: an (input, output) pair. -/
structure Route where
  input : String
  output : String
  deriving DecidableEq

/-- Error values for the two `anyhow::bail!` sites in `MatrixRouter`:
`"Input '{}' not found"` and `"Output '{}' not found"`. -/
inductive RouteError where
  | inputNotFound (input : String)
  | outputNotFound (output : String)
  deriving DecidableEq

/-- `HashMap::insert`: overwrite the entry whose key is `k` if present,
otherwise add the binding `(k, v)`. -/
def insertRoute : List (String × String) → String → String → List (String × String)
  | [], k, v => [(k, v)]
  | p :: rest, k, v => if p.1 = k then (k, v) :: rest else p :: insertRoute rest k v

/-- `HashMap::get`: the value bound to `k`, if any. -/
def lookupRoute : List (String × String) → String → Option String
  | [], _ => none
  | p :: rest, k => if p.1 = k then some p.2 else lookupRoute rest k

/-- `HashMap::remove`: drop the entry whose key is `k`. -/
def eraseRoute : List (String × String) → String → List (String × String)
  | [], _ => []
  | p :: rest, k => if p.1 = k then rest else p :: eraseRoute rest k

/-- Mirrors `MatrixRouter`: the output→input mapping, the known inputs and
the known outputs. -/
structure MatrixRouter where
  routes : List (String × String)
  inputs : List NdiSource
  outputs : List String
  deriving DecidableEq

/-- `MatrixRouter::new`. -/
def MatrixRouter.new : MatrixRouter := ⟨[], [], []⟩

/-- `MatrixRouter::add_input`: push the source unless an existing input
already has its `url`. -/
def MatrixRouter.add_input (r : MatrixRouter) (source : NdiSource) : MatrixRouter :=
  if r.inputs.any (fun s => s.url == source.url) then r
  else { r with inputs := r.inputs ++ [source] }

/-- `MatrixRouter::add_output`: push the name unless already present. -/
def MatrixRouter.add_output (r : MatrixRouter) (output : String) : MatrixRouter :=
  if r.outputs.contains output then r
  else { r with outputs := r.outputs ++ [output] }

/-- `MatrixRouter::route`: validate that some input matches by url or name,
then that the output exists, then insert the mapping. -/
def MatrixRouter.route (r : MatrixRouter) (input output : String) :
    Except RouteError MatrixRouter :=
  if !(r.inputs.any fun s => s.url == input || s.name == input) then
    .error (.inputNotFound input)
  else if !(r.outputs.contains output) then
    .error (.outputNotFound output)
  else
    .ok { r with routes := insertRoute r.routes output input }

/-- `MatrixRouter::route_placeholder`: like `route` but only the output is
validated. -/
def MatrixRouter.route_placeholder (r : MatrixRouter) (input output : String) :
    Except RouteError MatrixRouter :=
  if !(r.outputs.contains output) then
    .error (.outputNotFound output)
  else
    .ok { r with routes := insertRoute r.routes output input }

/-- `MatrixRouter::input_exists`: some known input matches by url or name. -/
def MatrixRouter.input_exists (r : MatrixRouter) (input : String) : Bool :=
  r.inputs.any fun s => s.url == input || s.name == input

/-- `MatrixRouter::unroute`: remove and return the mapping for `output`, if
any; the router is returned alongside since the Rust method mutates. -/
def MatrixRouter.unroute (r : MatrixRouter) (output : String) :
    Option String × MatrixRouter :=
  match lookupRoute r.routes output with
  | some input => (some input, { r with routes := eraseRoute r.routes output })
  | none => (none, r)

/-- `MatrixRouter::get_route`. -/
def MatrixRouter.get_route (r : MatrixRouter) (output : String) : Option String :=
  lookupRoute r.routes output

/-- `MatrixRouter::get_all_routes`: one `Route` per mapping entry. -/
def MatrixRouter.get_all_routes (r : MatrixRouter) : List Route :=
  r.routes.map fun p => ⟨p.2, p.1⟩

/-- `MatrixRouter::get_inputs`. -/
def MatrixRouter.get_inputs (r : MatrixRouter) : List NdiSource := r.inputs

/-- `MatrixRouter::get_outputs`. -/
def MatrixRouter.get_outputs (r : MatrixRouter) : List String := r.outputs

/-- `MatrixRouter::clear_routes`. -/
def MatrixRouter.clear_routes (r : MatrixRouter) : MatrixRouter :=
  { r with routes := [] }

/-- `MatrixRouter::load_routes`: apply each route via the strict `route`
call, halting on the first error; the state reached so far is kept. -/
def MatrixRouter.load_routes (r : MatrixRouter) :
    List Route → Except RouteError Unit × MatrixRouter
  | [] => (.ok (), r)
  | rt :: rest =>
    match r.route rt.input rt.output with
    | .ok r2 => r2.load_routes rest
    | .error e => (.error e, r)

/-- Mirrors `NdiDiscovery`: the discovered-source list and the poll-loop
flag (the `Arc<Mutex<_>>` wrappers disappear in the sequential model). -/
structure NdiDiscovery where
  sources : List NdiSource
  is_running : Bool
  deriving DecidableEq

/-- `NdiDiscovery::new`. -/
def NdiDiscovery.new : NdiDiscovery := ⟨[], false⟩

/-- `NdiDiscovery::discover_ndi_sources`: the mock collaborator in the
source returns the empty list. -/
def NdiDiscovery.discover_ndi_sources : List NdiSource := []

/-- One poll-loop iteration body (`*sources_lock = discovered` in
`NdiDiscovery::start`): wholesale replacement of the stored list by
whatever the discovery collaborator returned. -/
def NdiDiscovery.tick (d : NdiDiscovery) (discovered : List NdiSource) : NdiDiscovery :=
  { d with sources := discovered }

/-- `NdiDiscovery::get_sources`: a snapshot of the current list. -/
def NdiDiscovery.get_sources (d : NdiDiscovery) : List NdiSource := d.sources

/-- `NdiDiscovery::add_source`: push unless an existing source shares the
`url`. -/
def NdiDiscovery.add_source (d : NdiDiscovery) (source : NdiSource) : NdiDiscovery :=
  if d.sources.any (fun s => s.url == source.url) then d
  else { d with sources := d.sources ++ [source] }

/-- `NdiDiscovery::remove_source`: retain the sources whose url differs,
reporting whether anything was removed. -/
def NdiDiscovery.remove_source (d : NdiDiscovery) (url : String) :
    Bool × NdiDiscovery :=
  let kept := d.sources.filter fun s => s.url != url
  (decide (kept.length < d.sources.length), { d with sources := kept })

/-- `NdiDiscovery::stop`: flip the running flag. -/
def NdiDiscovery.stop (d : NdiDiscovery) : NdiDiscovery :=
  { d with is_running := false }

/-- `NdiDiscovery::start` (flag part): set the running flag; a second call
while running changes nothing. -/
def NdiDiscovery.start (d : NdiDiscovery) : NdiDiscovery :=
  if d.is_running then d else { d with is_running := true }

/-- The composed application state as wired in `src/gui/app.rs`: a router
and a discovery registry side by side. -/
structure AppState where
  router : MatrixRouter
  discovery : NdiDiscovery
  deriving DecidableEq

/-- Removing a source from the registry in the composed state: only the
discovery component is touched (`NdiDiscovery::remove_source` has no access
to the router). -/
def AppState.remove_source (st : AppState) (url : String) : Bool × AppState :=
  let r := st.discovery.remove_source url
  (r.1, ⟨st.router, r.2⟩)

/-- The source used by the repository's own test (`test_matrix_routing`). -/
def camSource : NdiSource := ⟨"Camera 1", "ndi://cam1", []⟩

/-- A router with one input and one output, as in the repository's test. -/
def demoRouter : MatrixRouter :=
  (MatrixRouter.new.add_input camSource).add_output "Out 1"

/-- A router prepared for the `load_routes` fail-fast scenario: outputs
`O1` and `O3` exist, `O2` does not. -/
def loadDemo : MatrixRouter :=
  ((MatrixRouter.new.add_input camSource).add_output "O1").add_output "O3"

/-- The state `loadDemo` reaches after the first route of the fail-fast
scenario is applied. -/
def loadDemoAfterFirst : MatrixRouter :=
  ⟨[("O1", "ndi://cam1")], [camSource], ["O1", "O3"]⟩

/-- `demoRouter` after routing by url: the mapping holds the url string. -/
def resolvedRouter : MatrixRouter :=
  ⟨[("Out 1", "ndi://cam1")], [camSource], ["Out 1"]⟩

/-- `demoRouter` after routing by display name: the mapping holds the name
string verbatim, not the canonical url. -/
def nameRoutedRouter : MatrixRouter :=
  ⟨[("Out 1", "Camera 1")], [camSource], ["Out 1"]⟩

/-- A source named `a` at url `u`. -/
def sourceA : NdiSource := ⟨"a", "u", []⟩

/-- A second source with the same url `u` but the different name `b`. -/
def sourceB : NdiSource := ⟨"b", "u", []⟩

/-- The mutating operations a caller can issue against a `MatrixRouter`;
fallible ones keep the state their Rust counterpart leaves behind. -/
inductive RouterOp where
  | addInput (s : NdiSource)
  | addOutput (o : String)
  | routeOp (i o : String)
  | placeholderOp (i o : String)
  | unrouteOp (o : String)
  | clearOp
  | loadOp (rs : List Route)

/-- State after one operation (a failed `route`/`route_placeholder` leaves
the router unchanged, exactly as the Rust code bails before inserting). -/
def RouterOp.apply (op : RouterOp) (r : MatrixRouter) : MatrixRouter :=
  match op with
  | .addInput s => r.add_input s
  | .addOutput o => r.add_output o
  | .routeOp i o =>
    match r.route i o with
    | .ok r2 => r2
    | .error _ => r
  | .placeholderOp i o =>
    match r.route_placeholder i o with
    | .ok r2 => r2
    | .error _ => r
  | .unrouteOp o => (r.unroute o).2
  | .clearOp => r.clear_routes
  | .loadOp rs => (r.load_routes rs).2

/-- Router states the program can actually construct: `MatrixRouter::new`
followed by any sequence of public operations. -/
inductive Reachable : MatrixRouter → Prop where
  | new : Reachable MatrixRouter.new
  | step (op : RouterOp) {r : MatrixRouter} : Reachable r → Reachable (op.apply r)

/-- The structural invariant of reachable routers: mapping keys (outputs),
input urls and output names are each duplicate-free. -/
def RouterInv (r : MatrixRouter) : Prop :=
  (r.routes.map Prod.fst).Nodup ∧ (r.inputs.map NdiSource.url).Nodup ∧ r.outputs.Nodup

/-- Registry operations as the program performs them: manual add/remove,
the poll-loop tick with the mock collaborator result, start and stop. -/
inductive RegOp where
  | addSource (s : NdiSource)
  | removeSource (url : String)
  | tickOp
  | startOp
  | stopOp

/-- State after one registry operation; `tickOp` stores what the source's
`discover_ndi_sources` collaborator returns. -/
def RegOp.apply (op : RegOp) (d : NdiDiscovery) : NdiDiscovery :=
  match op with
  | .addSource s => d.add_source s
  | .removeSource url => (d.remove_source url).2
  | .tickOp => d.tick NdiDiscovery.discover_ndi_sources
  | .startOp => d.start
  | .stopOp => d.stop

/-- Registry states the program can actually construct. -/
inductive RegReachable : NdiDiscovery → Prop where
  | new : RegReachable NdiDiscovery.new
  | step (op : RegOp) {d : NdiDiscovery} : RegReachable d → RegReachable (op.apply d)

section AssocLemmas

theorem lookup_insert_self (m : List (String × String)) (k v : String) :
    lookupRoute (insertRoute m k v) k = some v := by
  induction m with
  | nil => simp [insertRoute, lookupRoute]
  | cons p rest ih =>
    by_cases h : p.1 = k
    · simp [insertRoute, lookupRoute, h]
    · simp [insertRoute, lookupRoute, h, ih]

theorem lookup_insert_ne (m : List (String × String)) (k v k2 : String)
    (h : k2 ≠ k) : lookupRoute (insertRoute m k v) k2 = lookupRoute m k2 := by
  induction m with
  | nil => simp [insertRoute, lookupRoute, Ne.symm h]
  | cons p rest ih =>
    by_cases hp : p.1 = k
    · subst hp
      simp [insertRoute, lookupRoute, Ne.symm h]
    · simp only [insertRoute, if_neg hp, lookupRoute]
      by_cases hp2 : p.1 = k2
      · simp [hp2]
      · simp [hp2, ih]

theorem mem_insert_self (m : List (String × String)) (k v : String) :
    (k, v) ∈ insertRoute m k v := by
  induction m with
  | nil => simp [insertRoute]
  | cons p rest ih =>
    by_cases h : p.1 = k
    · simp [insertRoute, h]
    · simp [insertRoute, h, ih]

theorem mem_keys_insert (m : List (String × String)) (k v a : String) :
    a ∈ (insertRoute m k v).map Prod.fst ↔ a = k ∨ a ∈ m.map Prod.fst := by
  induction m with
  | nil => simp [insertRoute]
  | cons p rest ih =>
    by_cases h : p.1 = k
    · subst h
      simp [insertRoute]
    · simp only [insertRoute, if_neg h, List.map_cons, List.mem_cons, ih]
      tauto

theorem nodup_keys_insert (m : List (String × String)) (k v : String)
    (h : (m.map Prod.fst).Nodup) : ((insertRoute m k v).map Prod.fst).Nodup := by
  induction m with
  | nil => simp [insertRoute]
  | cons p rest ih =>
    simp only [List.map_cons, List.nodup_cons] at h
    by_cases hp : p.1 = k
    · subst hp
      simpa [insertRoute] using h
    · simp only [insertRoute, if_neg hp, List.map_cons, List.nodup_cons]
      refine ⟨?_, ih h.2⟩
      rw [mem_keys_insert]
      rintro (rfl | hmem)
      · exact hp rfl
      · exact h.1 hmem

theorem erase_sublist (m : List (String × String)) (k : String) :
    List.Sublist (eraseRoute m k) m := by
  induction m with
  | nil => simp [eraseRoute]
  | cons p rest ih =>
    by_cases h : p.1 = k
    · simp only [eraseRoute, if_pos h]
      exact (List.sublist_cons_self p rest)
    · simp only [eraseRoute, if_neg h]
      exact ih.cons₂ p

theorem nodup_keys_erase (m : List (String × String)) (k : String)
    (h : (m.map Prod.fst).Nodup) : ((eraseRoute m k).map Prod.fst).Nodup :=
  h.sublist ((erase_sublist m k).map Prod.fst)

theorem lookup_erase_ne (m : List (String × String)) (k k2 : String)
    (h : k2 ≠ k) : lookupRoute (eraseRoute m k) k2 = lookupRoute m k2 := by
  induction m with
  | nil => simp [eraseRoute]
  | cons p rest ih =>
    by_cases hp : p.1 = k
    · subst hp
      simp [eraseRoute, lookupRoute, Ne.symm h]
    · simp only [eraseRoute, if_neg hp, lookupRoute]
      by_cases hp2 : p.1 = k2
      · simp [hp2]
      · simp [hp2, ih]

theorem lookup_eq_none_iff (m : List (String × String)) (k : String) :
    lookupRoute m k = none ↔ k ∉ m.map Prod.fst := by
  induction m with
  | nil => simp [lookupRoute]
  | cons p rest ih =>
    by_cases hp : p.1 = k
    · simp [lookupRoute, hp]
    · simp [lookupRoute, hp, ih, Ne.symm hp]

theorem lookup_erase_self (m : List (String × String)) (k : String)
    (h : (m.map Prod.fst).Nodup) : lookupRoute (eraseRoute m k) k = none := by
  induction m with
  | nil => simp [eraseRoute, lookupRoute]
  | cons p rest ih =>
    simp only [List.map_cons, List.nodup_cons] at h
    by_cases hp : p.1 = k
    · subst hp
      simp only [eraseRoute, if_pos rfl]
      rw [lookup_eq_none_iff]
      exact h.1
    · simp [eraseRoute, lookupRoute, hp, ih h.2]

theorem lookup_eq_some_of_mem (m : List (String × String)) (k v : String)
    (h : (m.map Prod.fst).Nodup) (hm : (k, v) ∈ m) : lookupRoute m k = some v := by
  induction m with
  | nil => simp at hm
  | cons p rest ih =>
    simp only [List.map_cons, List.nodup_cons] at h
    rcases List.mem_cons.mp hm with rfl | hmem
    · simp [lookupRoute]
    · have hk : p.1 ≠ k := by
        rintro rfl
        exact h.1 (List.mem_map.mpr ⟨(p.1, v), hmem, rfl⟩)
      simp [lookupRoute, hk, ih h.2 hmem]

end AssocLemmas

section RouterLemmas

theorem input_check_eq (r : MatrixRouter) (i : String) :
    (r.inputs.any fun s => s.url == i || s.name == i) = r.input_exists i := rfl

theorem input_exists_iff (r : MatrixRouter) (i : String) :
    r.input_exists i = true ↔ ∃ s ∈ r.inputs, s.url = i ∨ s.name = i := by
  simp [MatrixRouter.input_exists]

theorem route_eq_ok_iff (r : MatrixRouter) (i o : String) (r2 : MatrixRouter) :
    r.route i o = Except.ok r2 ↔
      r.input_exists i = true ∧ r.outputs.contains o = true ∧
        r2 = { r with routes := insertRoute r.routes o i } := by
  unfold MatrixRouter.route
  rw [input_check_eq]
  cases hin : r.input_exists i <;> cases hout : r.outputs.contains o <;>
    simp [hin, hout, eq_comm]

theorem route_eq_error_input (r : MatrixRouter) (i o : String)
    (h : r.input_exists i = false) :
    r.route i o = Except.error (RouteError.inputNotFound i) := by
  unfold MatrixRouter.route
  rw [input_check_eq, h]
  simp

theorem route_eq_error_output (r : MatrixRouter) (i o : String)
    (h1 : r.input_exists i = true) (h2 : r.outputs.contains o = false) :
    r.route i o = Except.error (RouteError.outputNotFound o) := by
  unfold MatrixRouter.route
  rw [input_check_eq, h1, h2]
  simp

theorem placeholder_eq_ok_iff (r : MatrixRouter) (i o : String) (r2 : MatrixRouter) :
    r.route_placeholder i o = Except.ok r2 ↔
      r.outputs.contains o = true ∧
        r2 = { r with routes := insertRoute r.routes o i } := by
  unfold MatrixRouter.route_placeholder
  cases hout : r.outputs.contains o <;> simp [hout, eq_comm]

theorem placeholder_eq_error (r : MatrixRouter) (i o : String)
    (h : r.outputs.contains o = false) :
    r.route_placeholder i o = Except.error (RouteError.outputNotFound o) := by
  unfold MatrixRouter.route_placeholder
  rw [h]
  simp

theorem inv_add_input (r : MatrixRouter) (s : NdiSource) (h : RouterInv r) :
    RouterInv (r.add_input s) := by
  unfold MatrixRouter.add_input
  cases hany : r.inputs.any (fun t => t.url == s.url) with
  | true => simpa using h
  | false =>
    obtain ⟨h1, h2, h3⟩ := h
    refine ⟨h1, ?_, h3⟩
    simp only [List.any_eq_false, beq_iff_eq] at hany
    simpa [List.nodup_append] using ⟨h2, hany⟩

theorem inv_add_output (r : MatrixRouter) (o : String) (h : RouterInv r) :
    RouterInv (r.add_output o) := by
  unfold MatrixRouter.add_output
  cases hc : r.outputs.contains o with
  | true => simpa using h
  | false =>
    obtain ⟨h1, h2, h3⟩ := h
    refine ⟨h1, h2, ?_⟩
    simp at hc
    simpa [List.nodup_append] using ⟨h3, hc⟩

theorem inv_route_ok (r r2 : MatrixRouter) (i o : String) (h : RouterInv r)
    (hok : r.route i o = Except.ok r2) : RouterInv r2 := by
  rw [route_eq_ok_iff] at hok
  obtain ⟨-, -, rfl⟩ := hok
  exact ⟨nodup_keys_insert _ _ _ h.1, h.2.1, h.2.2⟩

theorem inv_placeholder_ok (r r2 : MatrixRouter) (i o : String) (h : RouterInv r)
    (hok : r.route_placeholder i o = Except.ok r2) : RouterInv r2 := by
  rw [placeholder_eq_ok_iff] at hok
  obtain ⟨-, rfl⟩ := hok
  exact ⟨nodup_keys_insert _ _ _ h.1, h.2.1, h.2.2⟩

theorem inv_unroute (r : MatrixRouter) (o : String) (h : RouterInv r) :
    RouterInv (r.unroute o).2 := by
  unfold MatrixRouter.unroute
  cases hL : lookupRoute r.routes o with
  | none => simpa using h
  | some i => exact ⟨nodup_keys_erase _ _ h.1, h.2.1, h.2.2⟩

theorem inv_load (r : MatrixRouter) (rs : List Route) (h : RouterInv r) :
    RouterInv (r.load_routes rs).2 := by
  induction rs generalizing r with
  | nil => simpa [MatrixRouter.load_routes] using h
  | cons rt rest ih =>
    simp only [MatrixRouter.load_routes]
    cases hr : r.route rt.input rt.output with
    | ok r2 =>
      simp only [hr]
      exact ih r2 (inv_route_ok r r2 rt.input rt.output h hr)
    | error e =>
      simp only [hr]
      exact h

theorem inv_apply (op : RouterOp) (r : MatrixRouter) (h : RouterInv r) :
    RouterInv (op.apply r) := by
  cases op with
  | addInput s => exact inv_add_input r s h
  | addOutput o => exact inv_add_output r o h
  | routeOp i o =>
    simp only [RouterOp.apply]
    cases hr : r.route i o with
    | ok r2 => exact inv_route_ok r r2 i o h hr
    | error e => exact h
  | placeholderOp i o =>
    simp only [RouterOp.apply]
    cases hr : r.route_placeholder i o with
    | ok r2 => exact inv_placeholder_ok r r2 i o h hr
    | error e => exact h
  | unrouteOp o => exact inv_unroute r o h
  | clearOp => exact ⟨List.nodup_nil, h.2.1, h.2.2⟩
  | loadOp rs => exact inv_load r rs h

theorem reachable_inv (r : MatrixRouter) (h : Reachable r) : RouterInv r := by
  induction h with
  | new => exact ⟨List.nodup_nil, List.nodup_nil, List.nodup_nil⟩
  | step op h ih => exact inv_apply op _ ih

theorem nodup_apply (op : RegOp) (d : NdiDiscovery)
    (h : (d.sources.map NdiSource.url).Nodup) :
    (((op.apply d).sources).map NdiSource.url).Nodup := by
  cases op with
  | addSource s =>
    simp only [RegOp.apply]
    unfold NdiDiscovery.add_source
    cases hany : d.sources.any (fun t => t.url == s.url) with
    | true => simpa using h
    | false =>
      simp only [List.any_eq_false, beq_iff_eq] at hany
      simpa [List.nodup_append] using ⟨h, hany⟩
  | removeSource url =>
    simp only [RegOp.apply]
    unfold NdiDiscovery.remove_source
    exact h.sublist ((List.filter_sublist _).map NdiSource.url)
  | tickOp =>
    simp [RegOp.apply, NdiDiscovery.tick, NdiDiscovery.discover_ndi_sources]
  | startOp =>
    simp only [RegOp.apply]
    unfold NdiDiscovery.start
    cases hb : d.is_running <;> simpa using h
  | stopOp => simpa [RegOp.apply, NdiDiscovery.stop] using h

theorem reg_reachable_nodup (d : NdiDiscovery) (h : RegReachable d) :
    (d.sources.map NdiSource.url).Nodup := by
  induction h with
  | new => simp [NdiDiscovery.new]
  | step op h ih => exact nodup_apply op _ ih

end RouterLemmas

section Helpers

theorem count_get_all_routes (r : MatrixRouter)
    (hnd : (r.routes.map Prod.fst).Nodup) (i o : String)
    (hmem : (o, i) ∈ r.routes) : r.get_all_routes.count ⟨i, o⟩ = 1 := by
  have hinj : Function.Injective (fun p : String × String => (⟨p.2, p.1⟩ : Route)) := by
    rintro ⟨a, b⟩ ⟨c, d⟩ hpq
    simp only [Route.mk.injEq] at hpq
    simp [hpq.1, hpq.2]
  have hnd2 : r.get_all_routes.Nodup := (hnd.of_map).map hinj
  exact List.count_eq_one_of_mem hnd2 (List.mem_map.mpr ⟨(o, i), hmem, rfl⟩)

theorem demoRouter_reachable : Reachable demoRouter :=
  Reachable.step (RouterOp.addOutput "Out 1")
    (Reachable.step (RouterOp.addInput camSource) Reachable.new)

theorem load_routes_append (pre : List Route) :
    ∀ (r r1 : MatrixRouter), r.load_routes pre = (Except.ok (), r1) →
      ∀ rest, r.load_routes (pre ++ rest) = r1.load_routes rest := by
  induction pre with
  | nil =>
    intro r r1 h rest
    simp only [MatrixRouter.load_routes, Prod.mk.injEq] at h
    rw [List.nil_append, h.2]
  | cons rt pre0 ih =>
    intro r r1 h rest
    simp only [MatrixRouter.load_routes, List.cons_append] at h ⊢
    cases hr : r.route rt.input rt.output with
    | ok r2 =>
      simp only [hr] at h ⊢
      exact ih r2 r1 h rest
    | error e =>
      simp only [hr, Prod.mk.injEq] at h
      exact Except.noConfusion h.1

/-- Decidable equality for `Except`, so concrete routing results can be
checked by evaluation. -/
instance exceptDecidableEq {ε α : Type} [DecidableEq ε] [DecidableEq α] :
    DecidableEq (Except ε α) := fun x y =>
  match x, y with
  | .ok a, .ok b =>
    if h : a = b then .isTrue (by rw [h])
    else .isFalse (fun hc => h (Except.ok.inj hc))
  | .ok _, .error _ => .isFalse (fun hc => Except.noConfusion hc)
  | .error _, .ok _ => .isFalse (fun hc => Except.noConfusion hc)
  | .error e, .error f =>
    if h : e = f then .isTrue (by rw [h])
    else .isFalse (fun hc => h (Except.error.inj hc))

end Helpers

/-- C1: in every reachable router, for any source previously added via
`add_input` (hence present in `inputs`) and any output previously added via
`add_output` (hence present in `outputs`), `route` on the source's url
succeeds, and `get_all_routes` afterwards contains exactly one pair
(input, output). -/
theorem route_added_pair_succeeds_unique (r : MatrixRouter) (h : Reachable r)
    (s : NdiSource) (hs : s ∈ r.inputs) (o : String) (ho : o ∈ r.outputs) :
    ∃ r2, r.route s.url o = Except.ok r2 ∧
      r2.get_all_routes.count ⟨s.url, o⟩ = 1 := by
  have hin : r.input_exists s.url = true :=
    (input_exists_iff r s.url).mpr ⟨s, hs, Or.inl rfl⟩
  have hout : r.outputs.contains o = true := by simpa using ho
  refine ⟨{ r with routes := insertRoute r.routes o s.url }, ?_, ?_⟩
  · rw [route_eq_ok_iff]
    exact ⟨hin, hout, rfl⟩
  · exact count_get_all_routes _ (nodup_keys_insert _ _ _ (reachable_inv r h).1)
      s.url o (mem_insert_self _ _ _)

/-- C1 witness: the concrete router of the repository's own test. -/
theorem route_added_pair_succeeds_unique_witness :
    ∃ r2, demoRouter.route camSource.url "Out 1" = Except.ok r2 ∧
      r2.get_all_routes.count ⟨camSource.url, "Out 1"⟩ = 1 :=
  route_added_pair_succeeds_unique demoRouter demoRouter_reachable camSource
    (by decide) "Out 1" (by decide)

/-- C2 counterexample: with both the input and the output unknown, `route`
reports the missing input, not the missing output, because the input check
runs first; so "fails with NotFound(output) whenever the output is
unknown" is false as stated. -/
theorem route_error_priority_counterexample :
    "Out 1" ∉ MatrixRouter.new.outputs ∧
    MatrixRouter.new.route "ndi://cam1" "Out 1" =
      Except.error (RouteError.inputNotFound "ndi://cam1") ∧
    MatrixRouter.new.route "ndi://cam1" "Out 1" ≠
      Except.error (RouteError.outputNotFound "Out 1") := by
  decide

/-- C2 (amended): `route` fails with a NotFound error identifying the
input whenever no known input matches by url or name (this check runs
first); when an input matches but the output is unknown it fails with a
NotFound error identifying the output; it succeeds exactly when both
exist, and on success it inserts or overwrites the mapping for that
output, leaving every other mapping, the inputs and the outputs
unchanged. -/
theorem route_result_spec (r : MatrixRouter) (i o : String) :
    (r.input_exists i = false →
      r.route i o = Except.error (RouteError.inputNotFound i)) ∧
    (r.input_exists i = true → o ∉ r.outputs →
      r.route i o = Except.error (RouteError.outputNotFound o)) ∧
    ((∃ r2, r.route i o = Except.ok r2) ↔
      (r.input_exists i = true ∧ o ∈ r.outputs)) ∧
    (∀ r2, r.route i o = Except.ok r2 →
      r2.get_route o = some i ∧
      (∀ o2, o2 ≠ o → r2.get_route o2 = r.get_route o2) ∧
      r2.inputs = r.inputs ∧ r2.outputs = r.outputs) := by
  refine ⟨route_eq_error_input r i o, ?_, ?_, ?_⟩
  · intro h1 h2
    exact route_eq_error_output r i o h1 (by simpa using h2)
  · constructor
    · rintro ⟨r2, hok⟩
      obtain ⟨ha, hb, -⟩ := (route_eq_ok_iff r i o r2).mp hok
      exact ⟨ha, by simpa using hb⟩
    · rintro ⟨ha, hb⟩
      exact ⟨_, (route_eq_ok_iff r i o _).mpr ⟨ha, by simpa using hb, rfl⟩⟩
  · intro r2 hok
    obtain ⟨-, -, rfl⟩ := (route_eq_ok_iff r i o r2).mp hok
    refine ⟨?_, ?_, rfl, rfl⟩
    · simpa [MatrixRouter.get_route] using lookup_insert_self r.routes o i
    · intro o2 ho2
      simpa [MatrixRouter.get_route] using lookup_insert_ne r.routes o i o2 ho2

/-- C2 witness: the amended theorem applied to the empty router, where the
unknown input is reported. -/
theorem route_result_spec_witness :
    MatrixRouter.new.route "ndi://cam1" "Out 1" =
      Except.error (RouteError.inputNotFound "ndi://cam1") :=
  (route_result_spec MatrixRouter.new "ndi://cam1" "Out 1").1 (by decide)

/-- C3 counterexample: `add_input` deduplicates by url, so a single
`add_input` of a source whose name is `b` (url `u`) after an existing
input with url `u` is a no-op, and `input_exists "b"` stays false even
though a source whose name equals `"b"` was just added. -/
theorem input_exists_after_add_counterexample :
    sourceB.name = "b" ∧
    (MatrixRouter.new.add_input sourceA).input_exists "b" = false ∧
    ((MatrixRouter.new.add_input sourceA).add_input sourceB).input_exists "b" =
      false := by
  decide

/-- C3 (amended): `route_placeholder i o` succeeds exactly when the output
`o` exists, regardless of `i`; on success it inserts or overwrites the
mapping for `o` leaving other mappings and the inputs unchanged;
`input_exists i` is false precisely while no known input matches `i` by
url or name; and it becomes true after a single `add_input` of a source
whose url equals `i`, or whose name equals `i` provided no already-known
input shares that source's url (otherwise the deduplicating `add_input` is
a no-op). -/
theorem route_placeholder_spec (r : MatrixRouter) (i o : String) :
    ((∃ r2, r.route_placeholder i o = Except.ok r2) ↔ o ∈ r.outputs) ∧
    (∀ r2, r.route_placeholder i o = Except.ok r2 →
      r2.get_route o = some i ∧
      (∀ o2, o2 ≠ o → r2.get_route o2 = r.get_route o2) ∧
      r2.inputs = r.inputs) ∧
    (r.input_exists i = false ↔ ∀ s ∈ r.inputs, s.url ≠ i ∧ s.name ≠ i) ∧
    (∀ s : NdiSource, s.url = i → (r.add_input s).input_exists i = true) ∧
    (∀ s : NdiSource, s.name = i → (∀ t ∈ r.inputs, t.url ≠ s.url) →
      (r.add_input s).input_exists i = true) := by
  refine ⟨?_, ?_, ?_, ?_, ?_⟩
  · constructor
    · rintro ⟨r2, hok⟩
      exact by simpa using ((placeholder_eq_ok_iff r i o r2).mp hok).1
    · intro ho
      exact ⟨_, (placeholder_eq_ok_iff r i o _).mpr ⟨by simpa using ho, rfl⟩⟩
  · intro r2 hok
    obtain ⟨-, rfl⟩ := (placeholder_eq_ok_iff r i o r2).mp hok
    refine ⟨?_, ?_, rfl⟩
    · simpa [MatrixRouter.get_route] using lookup_insert_self r.routes o i
    · intro o2 ho2
      simpa [MatrixRouter.get_route] using lookup_insert_ne r.routes o i o2 ho2
  · rw [← Bool.not_eq_true, input_exists_iff]
    push_neg
    constructor
    · intro hall s hm
      exact hall s hm
    · intro hall s hm
      exact hall s hm
  · intro s hurl
    unfold MatrixRouter.add_input
    cases hany : r.inputs.any (fun t => t.url == s.url) with
    | true =>
      rw [if_pos rfl]
      obtain ⟨t, ht, htu⟩ := List.any_eq_true.mp hany
      exact (input_exists_iff r i).mpr ⟨t, ht, Or.inl (by
        rw [beq_iff_eq] at htu
        rw [htu, hurl])⟩
    | false =>
      rw [if_neg Bool.false_ne_true]
      refine (input_exists_iff _ i).mpr ⟨s, ?_, Or.inl hurl⟩
      simp
  · intro s hname hnone
    unfold MatrixRouter.add_input
    have hany : (r.inputs.any fun t => t.url == s.url) = false := by
      rw [List.any_eq_false]
      intro t ht
      simpa using hnone t ht
    rw [hany, if_neg Bool.false_ne_true]
    refine (input_exists_iff _ i).mpr ⟨s, ?_, Or.inr hname⟩
    simp

/-- C3 witness: a placeholder route to a not-yet-discovered source on the
demo router, then resolution by adding the matching source. -/
theorem route_placeholder_spec_witness :
    (∃ r2, demoRouter.route_placeholder "ndi://cam9" "Out 1" = Except.ok r2) ∧
    (demoRouter.add_input ⟨"Camera 9", "ndi://cam9", []⟩).input_exists
      "ndi://cam9" = true :=
  ⟨(route_placeholder_spec demoRouter "ndi://cam9" "Out 1").1.mpr (by decide),
    (route_placeholder_spec demoRouter "ndi://cam9" "Out 1").2.2.2.1
      ⟨"Camera 9", "ndi://cam9", []⟩ rfl⟩

/-- C4: `load_routes` applies its routes one by one via the strict `route`
call: a successfully loaded prefix leaves the table in the state the
prefix produced, and a failing route halts the loading there, propagating
that route's error — the prefix stays applied, the failing route and
everything after it are not applied, and nothing is rolled back. -/
theorem load_routes_fail_fast (r r1 : MatrixRouter) (pre : List Route)
    (h : r.load_routes pre = (Except.ok (), r1)) :
    (∀ rest, r.load_routes (pre ++ rest) = r1.load_routes rest) ∧
    (∀ i o e post, r1.route i o = Except.error e →
      r.load_routes (pre ++ Route.mk i o :: post) = (Except.error e, r1)) := by
  refine ⟨load_routes_append pre r r1 h, ?_⟩
  intro i o e post hbad
  rw [load_routes_append pre r r1 h (Route.mk i o :: post)]
  simp only [MatrixRouter.load_routes]
  rw [hbad]

/-- C4 witness: the spec's own scenario — `r1` valid, `r2` targeting the
missing output `O2`, `r3` valid: the call reports NotFound for `O2`, `r1`
is applied and `r3` is not. -/
theorem load_routes_fail_fast_witness :
    loadDemo.load_routes
        [⟨"ndi://cam1", "O1"⟩, ⟨"ndi://cam1", "O2"⟩, ⟨"ndi://cam1", "O3"⟩] =
      (Except.error (RouteError.outputNotFound "O2"), loadDemoAfterFirst) :=
  (load_routes_fail_fast loadDemo loadDemoAfterFirst [⟨"ndi://cam1", "O1"⟩]
      (by decide)).2 "ndi://cam1" "O2" (RouteError.outputNotFound "O2")
    [⟨"ndi://cam1", "O3"⟩] (by decide)

/-- C5 counterexample: a resolved route whose backing source is removed
from the registry keeps its stored mapping (as the claim says), but
`input_exists` still reports `true`, not `false`: the router's known-inputs
list is separate from the registry and `remove_source` never shrinks it. -/
theorem stale_route_input_exists_counterexample :
    ((MatrixRouter.new.add_input camSource).add_output "Out 1").route
        "ndi://cam1" "Out 1" = Except.ok resolvedRouter ∧
    resolvedRouter.input_exists "ndi://cam1" = true ∧
    ((AppState.mk resolvedRouter
          (NdiDiscovery.new.add_source camSource)).remove_source
        "ndi://cam1").2.discovery.get_sources = [] ∧
    ((AppState.mk resolvedRouter
          (NdiDiscovery.new.add_source camSource)).remove_source
        "ndi://cam1").2.router.get_all_routes = [⟨"ndi://cam1", "Out 1"⟩] ∧
    ((AppState.mk resolvedRouter
          (NdiDiscovery.new.add_source camSource)).remove_source
        "ndi://cam1").2.router.input_exists "ndi://cam1" = true := by
  decide

/-- C5 (amended): removing a source from the registry leaves the routing
table entirely unchanged — `get_all_routes` still contains every stored
pair with its original input string, nothing is purged — and it also
leaves `input_exists` unchanged for every input string (so a Resolved
route is not demoted: the router's known-inputs list is disjoint state
that `remove_source` never touches); only the registry's source list
loses the entries with that url. -/
theorem remove_source_preserves_router (st : AppState) (url : String) :
    (st.remove_source url).2.router = st.router ∧
    (st.remove_source url).2.router.get_all_routes = st.router.get_all_routes ∧
    (∀ i, (st.remove_source url).2.router.input_exists i =
      st.router.input_exists i) ∧
    (∀ s, s ∈ (st.remove_source url).2.discovery.get_sources ↔
      s ∈ st.discovery.get_sources ∧ s.url ≠ url) := by
  refine ⟨rfl, rfl, fun i => rfl, fun s => ?_⟩
  simp [AppState.remove_source, NdiDiscovery.remove_source,
    NdiDiscovery.get_sources, List.mem_filter, bne_iff_ne]

/-- C6: a poll tick replaces the registry's stored source list wholesale
with exactly the list the discovery collaborator returned, regardless of
the previous contents; in particular sources present before the tick —
including ones inserted by a manual `add_source` or kept by a
`remove_source` — are gone unless the tick's result contains them. -/
theorem tick_wholesale_replacement (d d2 : NdiDiscovery)
    (discovered : List NdiSource) :
    (d.tick discovered).get_sources = discovered ∧
    (∀ s, s ∈ (d.tick discovered).get_sources ↔ s ∈ discovered) ∧
    (d.tick discovered).get_sources = (d2.tick discovered).get_sources ∧
    (∀ s, ((d.add_source s).tick discovered).get_sources = discovered) ∧
    (∀ url, ((d.remove_source url).2.tick discovered).get_sources =
      discovered) :=
  ⟨rfl, fun _ => Iff.rfl, rfl, fun _ => rfl, fun _ => rfl⟩

/-- C7: `unroute` is total — it returns exactly the current mapping for
the output; when a mapping exists it removes exactly that mapping
(returning the removed input, mapping gone afterwards, all other mappings
and the inputs and outputs untouched), and when none exists it returns
nothing and leaves the whole router, hence `get_all_routes`, unchanged. -/
theorem unroute_spec (r : MatrixRouter) (h : Reachable r) (o : String) :
    ((r.unroute o).1 = r.get_route o) ∧
    (∀ i, r.get_route o = some i →
      (r.unroute o).1 = some i ∧
      (r.unroute o).2.get_route o = none ∧
      (∀ o2, o2 ≠ o → (r.unroute o).2.get_route o2 = r.get_route o2) ∧
      (r.unroute o).2.inputs = r.inputs ∧ (r.unroute o).2.outputs = r.outputs) ∧
    (r.get_route o = none → r.unroute o = (none, r)) := by
  have hnd := (reachable_inv r h).1
  refine ⟨?_, ?_, ?_⟩
  · unfold MatrixRouter.unroute MatrixRouter.get_route
    cases lookupRoute r.routes o <;> rfl
  · intro i hi
    have hu : r.unroute o = (some i, { r with routes := eraseRoute r.routes o }) := by
      unfold MatrixRouter.unroute
      rw [show lookupRoute r.routes o = some i from hi]
    rw [hu]
    refine ⟨rfl, ?_, ?_, rfl, rfl⟩
    · simpa [MatrixRouter.get_route] using lookup_erase_self r.routes o hnd
    · intro o2 ho2
      simpa [MatrixRouter.get_route] using lookup_erase_ne r.routes o o2 ho2
  · intro hnone
    unfold MatrixRouter.unroute
    rw [show lookupRoute r.routes o = none from hnone]

/-- C7 witness: unrouting the demo router's output, which has no mapping,
returns nothing and changes nothing. -/
theorem unroute_spec_witness :
    demoRouter.unroute "Out 1" = (none, demoRouter) :=
  (unroute_spec demoRouter demoRouter_reachable "Out 1").2.2 (by decide)

/-- C8: both known-inputs collections deduplicate by url — adding a
source whose url already has an entry is a no-op for the table's
`add_input` and the registry's `add_source` alike, adding two sources
with the same url (even with different names) leaves exactly the first
one in `get_inputs`, and in every reachable router and registry state no
two stored sources share a url. -/
theorem inputs_dedup_by_url :
    (∀ (r : MatrixRouter) (s : NdiSource),
      (∃ t ∈ r.inputs, t.url = s.url) → r.add_input s = r) ∧
    (∀ (d : NdiDiscovery) (s : NdiSource),
      (∃ t ∈ d.sources, t.url = s.url) → d.add_source s = d) ∧
    (∀ s1 s2 : NdiSource, s1.url = s2.url →
      ((MatrixRouter.new.add_input s1).add_input s2).get_inputs = [s1]) ∧
    (∀ r, Reachable r → (r.get_inputs.map NdiSource.url).Nodup) ∧
    (∀ d, RegReachable d → (d.get_sources.map NdiSource.url).Nodup) := by
  refine ⟨?_, ?_, ?_, ?_, ?_⟩
  · rintro r s ⟨t, ht, hurl⟩
    unfold MatrixRouter.add_input
    rw [if_pos (List.any_eq_true.mpr ⟨t, ht, by simp [hurl]⟩)]
  · rintro d s ⟨t, ht, hurl⟩
    unfold NdiDiscovery.add_source
    rw [if_pos (List.any_eq_true.mpr ⟨t, ht, by simp [hurl]⟩)]
  · intro s1 s2 hurl
    have h1 : MatrixRouter.new.add_input s1 = ⟨[], [s1], []⟩ := by
      unfold MatrixRouter.new MatrixRouter.add_input
      simp
    rw [h1]
    unfold MatrixRouter.add_input
    rw [if_pos (List.any_eq_true.mpr ⟨s1, by simp, by simp [hurl]⟩)]
    rfl
  · exact fun r h => (reachable_inv r h).2.1
  · exact fun d h => reg_reachable_nodup d h

/-- C8 witness: two sources sharing the url `u` under different names
leave exactly one entry, the first source, in `get_inputs`. -/
theorem inputs_dedup_by_url_witness :
    ((MatrixRouter.new.add_input sourceA).add_input sourceB).get_inputs =
      [sourceA] :=
  inputs_dedup_by_url.2.2.1 sourceA sourceB rfl

/-- C9: in every reachable router at most one input is mapped to any given
output — the outputs of `get_all_routes` are duplicate-free — and a
successful `route` or `route_placeholder` for an already-routed output
overwrites the previous mapping: afterwards the output maps to the new
input (last write wins). -/
theorem one_input_per_output (r : MatrixRouter) (h : Reachable r) :
    (r.get_all_routes.map Route.output).Nodup ∧
    (∀ i o r2, r.route i o = Except.ok r2 → r2.get_route o = some i) ∧
    (∀ i o r2, r.route_placeholder i o = Except.ok r2 →
      r2.get_route o = some i) := by
  refine ⟨?_, ?_, ?_⟩
  · have hmap : r.get_all_routes.map Route.output = r.routes.map Prod.fst := by
      simp [MatrixRouter.get_all_routes, Function.comp_def]
    rw [hmap]
    exact (reachable_inv r h).1
  · intro i o r2 hok
    obtain ⟨-, -, rfl⟩ := (route_eq_ok_iff r i o r2).mp hok
    simpa [MatrixRouter.get_route] using lookup_insert_self r.routes o i
  · intro i o r2 hok
    obtain ⟨-, rfl⟩ := (placeholder_eq_ok_iff r i o r2).mp hok
    simpa [MatrixRouter.get_route] using lookup_insert_self r.routes o i

/-- C9 witness: routing the demo router's output twice leaves the second
input as the mapping. -/
theorem one_input_per_output_witness :
    resolvedRouter.route "Camera 1" "Out 1" = Except.ok nameRoutedRouter ∧
    nameRoutedRouter.get_route "Out 1" = some "Camera 1" :=
  ⟨by decide,
    (one_input_per_output resolvedRouter
        (Reachable.step (RouterOp.routeOp "ndi://cam1" "Out 1")
          demoRouter_reachable)).2.1
      "Camera 1" "Out 1" nameRoutedRouter (by decide)⟩

/-- C10: a successful `route` or `route_placeholder` stores the
caller-supplied input string verbatim as the mapping value, and
`get_route`, `unroute` and `get_all_routes` later return exactly that
string — in particular, when `route` matched a known source by name, the
name string is stored, not the canonical url. -/
theorem route_stores_verbatim (r : MatrixRouter) (i o : String)
    (r2 : MatrixRouter)
    (h : r.route i o = Except.ok r2 ∨ r.route_placeholder i o = Except.ok r2) :
    r2.get_route o = some i ∧ (r2.unroute o).1 = some i ∧
      Route.mk i o ∈ r2.get_all_routes := by
  have hr2 : r2 = { r with routes := insertRoute r.routes o i } := by
    rcases h with h | h
    · exact ((route_eq_ok_iff r i o r2).mp h).2.2
    · exact ((placeholder_eq_ok_iff r i o r2).mp h).2
  subst hr2
  refine ⟨?_, ?_, ?_⟩
  · simpa [MatrixRouter.get_route] using lookup_insert_self r.routes o i
  · unfold MatrixRouter.unroute
    rw [show lookupRoute (insertRoute r.routes o i) o = some i from
      lookup_insert_self r.routes o i]
  · exact List.mem_map.mpr ⟨(o, i), mem_insert_self _ _ _, rfl⟩

/-- C10 witness: routing by display name `Camera 1` on the demo router
stores the name string, not the url `ndi://cam1`, and `get_route`,
`unroute` and `get_all_routes` all return it verbatim. -/
theorem route_stores_verbatim_witness :
    nameRoutedRouter.get_route "Out 1" = some "Camera 1" ∧
    (nameRoutedRouter.unroute "Out 1").1 = some "Camera 1" ∧
    Route.mk "Camera 1" "Out 1" ∈ nameRoutedRouter.get_all_routes :=
  route_stores_verbatim demoRouter "Camera 1" "Out 1" nameRoutedRouter
    (Or.inl (by decide))

end RusTV
